import Mathlib

/-!
# StyleMate (`app.py`) — shallow embedding and verification

This file embeds the core of the StyleMate Flask application (`src/app.py`)
as executable Lean definitions and proves properties of them:

* the rule-based outfit suggestion engine `suggest_rule_based`
  (color detection, garment split and categorization, event classification,
  personalization, composition);
* the OpenAI gateway wrapper `call_openai` and the `index` request handler's
  fallback behaviour, with the external effects (environment variables,
  library availability, the remote call outcome) made explicit as an
  environment record;
* the credential-store routes `signup`, `login` and `profile` over an
  explicit user table, with the password hash function passed explicitly
  (the source delegates hashing to werkzeug).

Python string operations used by the source (`str.lower`, `str.strip`,
`str.split(',')`, the `in` substring test, `', '.join`) are modelled over
`List Char` and wrapped into `String`-level functions `pyLower`, `pyStrip`,
`pySplit`, `pyContains`, `pyJoin`.
-/

/-- ASCII lower-casing of one character, modelling Python `str.lower` on the
character range the program manipulates. -/
def lowerChar (c : Char) : Char :=
  match c with
  | 'A' => 'a' | 'B' => 'b' | 'C' => 'c' | 'D' => 'd' | 'E' => 'e' | 'F' => 'f'
  | 'G' => 'g' | 'H' => 'h' | 'I' => 'i' | 'J' => 'j' | 'K' => 'k' | 'L' => 'l'
  | 'M' => 'm' | 'N' => 'n' | 'O' => 'o' | 'P' => 'p' | 'Q' => 'q' | 'R' => 'r'
  | 'S' => 's' | 'T' => 't' | 'U' => 'u' | 'V' => 'v' | 'W' => 'w' | 'X' => 'x'
  | 'Y' => 'y' | 'Z' => 'z'
  | c => c

/-- The whitespace characters stripped by Python `str.strip()` (ASCII part). -/
def isSpaceChar (c : Char) : Bool :=
  c = ' ' || c = '\t' || c = '\n' || c = '\r' || c = '\x0b' || c = '\x0c'

/-- Lower-case every character of a character list. -/
def toLowerL (l : List Char) : List Char := l.map lowerChar

/-- Strip leading and trailing whitespace, modelling Python `str.strip()`. -/
def trimL (l : List Char) : List Char :=
  ((l.dropWhile isSpaceChar).reverse.dropWhile isSpaceChar).reverse

/-- Split a character list at every comma, modelling Python `s.split(',')`
(the empty list splits to one empty piece, as in Python). -/
def splitComma : List Char → List (List Char)
  | [] => [[]]
  | c :: cs =>
    if c = ',' then [] :: splitComma cs
    else
      match splitComma cs with
      | [] => [[c]]
      | p :: ps => (c :: p) :: ps

/-- Does `needle` occur at the start of `hay`? -/
def startsWithL : List Char → List Char → Bool
  | [], _ => true
  | _ :: _, [] => false
  | a :: as, b :: bs => a = b && startsWithL as bs

/-- Does `needle` occur as a contiguous substring of `hay`?  Models the
Python `needle in hay` test on strings. -/
def containsL (hay needle : List Char) : Bool :=
  match hay with
  | [] => startsWithL needle []
  | _ :: t => startsWithL needle hay || containsL t needle

/-- Interleave `sep` between the pieces and concatenate, modelling
Python `sep.join(pieces)`. -/
def intercalateL (sep : List Char) : List (List Char) → List Char
  | [] => []
  | [x] => x
  | x :: y :: xs => x ++ sep ++ intercalateL sep (y :: xs)

/-- Python `s.lower()`. -/
def pyLower (s : String) : String := ⟨toLowerL s.data⟩

/-- Python `s.strip()`. -/
def pyStrip (s : String) : String := ⟨trimL s.data⟩

/-- Python `s.split(',')`. -/
def pySplit (s : String) : List String := (splitComma s.data).map String.mk

/-- Python `needle in hay` on strings. -/
def pyContains (hay needle : String) : Bool := containsL hay.data needle.data

/-- Python `sep.join(xs)`. -/
def pyJoin (sep : String) (xs : List String) : String :=
  ⟨intercalateL sep.data (xs.map String.data)⟩

/-! ## The rule engine (`suggest_rule_based`, app.py lines 32–76) -/

/-- The fixed color palette of app.py line 34. -/
def colors : List String :=
  ["red", "blue", "green", "black", "white", "gray", "yellow", "pink"]

/-- From app.py line 35: `[c for c in colors if c in clothes_text.lower()]`. -/
def detectedColors (clothes_text : String) : List String :=
  colors.filter (fun c => pyContains (pyLower clothes_text) c)

/-- From app.py line 38: split on commas, strip and lower-case each piece. -/
def pieces (clothes_text : String) : List String :=
  (pySplit clothes_text).map (fun item => pyLower (pyStrip item))

/-- The six garment buckets of app.py line 39. -/
inductive Bucket
  | tops | bottoms | dresses | outer | shoes | accessories
deriving DecidableEq, Repr

/-- From app.py lines 41–46: the if/elif keyword cascade assigning one bucket
to a (stripped, lower-cased) garment item. -/
def categorize (item : String) : Bucket :=
  if pyContains item "shirt" || pyContains item "top" then .tops
  else if pyContains item "jeans" || pyContains item "pants" || pyContains item "skirt" then .bottoms
  else if pyContains item "dress" then .dresses
  else if pyContains item "jacket" || pyContains item "coat" then .outer
  else if pyContains item "shoes" || pyContains item "sneakers" || pyContains item "boots" then .shoes
  else .accessories

/-- The `categories` dict of app.py line 39: one list of items per bucket. -/
structure Categories where
  tops : List String
  bottoms : List String
  dresses : List String
  outer : List String
  shoes : List String
  accessories : List String
deriving DecidableEq, Repr

/-- The empty `categories` dict. -/
def Categories.empty : Categories := ⟨[], [], [], [], [], []⟩

/-- Field selection on `Categories` by bucket. -/
def Categories.get (cats : Categories) : Bucket → List String
  | .tops => cats.tops
  | .bottoms => cats.bottoms
  | .dresses => cats.dresses
  | .outer => cats.outer
  | .shoes => cats.shoes
  | .accessories => cats.accessories

/-- One iteration of the loop of app.py lines 40–46: append `item` to the
list of its bucket. -/
def addItem (cats : Categories) (item : String) : Categories :=
  match categorize item with
  | .tops => { cats with tops := cats.tops ++ [item] }
  | .bottoms => { cats with bottoms := cats.bottoms ++ [item] }
  | .dresses => { cats with dresses := cats.dresses ++ [item] }
  | .outer => { cats with outer := cats.outer ++ [item] }
  | .shoes => { cats with shoes := cats.shoes ++ [item] }
  | .accessories => { cats with accessories := cats.accessories ++ [item] }

/-- The whole loop of app.py lines 40–46. -/
def categorizeAll (items : List String) : Categories :=
  items.foldl addItem Categories.empty

/-- The five event buckets of app.py lines 50–69 (`generic` is the final
`else` branch). -/
inductive EventBucket
  | interview | party | college | wedding | generic
deriving DecidableEq, Repr

/-- From app.py lines 49–66: lower-case the event, test substring containment in
priority order. -/
def eventBucket (event : String) : EventBucket :=
  let e := pyLower event
  if pyContains e "interview" then .interview
  else if pyContains e "party" then .party
  else if pyContains e "college" then .college
  else if pyContains e "wedding" then .wedding
  else .generic

/-- The fixed (outfit, color tip, accessories) template triple each event
bucket assigns (app.py lines 50–69). -/
def bucketTriple : EventBucket → String × String × String
  | .interview =>
    ("Professional: Button-up shirt with slacks or skirt.",
     "Neutral colors (black, navy, gray).",
     "Minimal: Watch, simple earrings, polished shoes.")
  | .party =>
    ("Fun and vibrant: Stylish top with jeans.",
     "Bright or metallic colors to stand out.",
     "Statement jewelry, clutch, heels or boots.")
  | .college =>
    ("Casual: Jeans with t-shirt or hoodie.",
     "Mix casual colors; earth tones for relaxed vibe.",
     "Backpack, sneakers, cap or scarf.")
  | .wedding =>
    ("Elegant dress or suit.",
     "Pastels or jewel tones.",
     "Delicate jewelry, dress shoes, small bag.")
  | .generic =>
    ("Comfortable and confident: Mix and match your clothes.",
     "Neutrals work for any occasion.",
     "Keep it simple.")

/-- From app.py lines 32–74: the outfit, color-tip and accessories strings after
the personalization step (lines 72–74), before final composition. -/
def suggestionParts (event clothes_text : String) : String × String × String :=
  let detected := detectedColors clothes_text
  let cats := categorizeAll (pieces clothes_text)
  let t := bucketTriple (eventBucket event)
  let outfit := t.1
  let color_tip := t.2.1
  let accessories := t.2.2
  let color_tip :=
    if detected.isEmpty then color_tip
    else color_tip ++ " Detected: " ++ pyJoin ", " detected ++ "."
  let outfit :=
    if cats.tops.isEmpty && cats.bottoms.isEmpty then outfit
    else outfit ++ " Use your " ++ pyJoin ", " (cats.tops ++ cats.bottoms) ++ "."
  (outfit, color_tip, accessories)

/-- From app.py line 76: compose the final suggestion string. -/
def suggest_rule_based (event clothes_text : String) : String :=
  let p := suggestionParts event clothes_text
  "<b>Outfit:</b> " ++ p.1 ++ "<br><b>Color Tip:</b> " ++ p.2.1 ++
    "<br><b>Accessories:</b> " ++ p.2.2 ++ "<br><b>Tip:</b> Match your vibe to the event!"

/-- The stripping-and-lower-casing applied to each comma-separated piece
(app.py line 38, `item.strip().lower()` at `List Char` level). -/
def procL (q : List Char) : List Char := toLowerL (trimL q)

/-! ## Spec-side reformulations (for the refinement claims only)

These two definitions follow the `spec.md` wording — an ordered table of
(keywords, bucket) rows, scanned first-match-wins — and are compared with
the source-derived cascades `categorize` and `eventBucket`. -/

/-- Modelled from the spec: §4.3 step 3's priority-ordered keyword table. -/
def keywordTable : List (List String × Bucket) :=
  [(["shirt", "top"], .tops),
   (["jeans", "pants", "skirt"], .bottoms),
   (["dress"], .dresses),
   (["jacket", "coat"], .outer),
   (["shoes", "sneakers", "boots"], .shoes)]

/-- Modelled from the spec: classify by the first table row with a matching
keyword; no match falls into accessories. -/
def firstMatchBucket (item : String) : Bucket :=
  match keywordTable.find? (fun row => row.1.any (fun kw => pyContains item kw)) with
  | some row => row.2
  | none => .accessories

/-- Modelled from the spec: §4.3 step 4's priority-ordered event keywords. -/
def eventTable : List (String × EventBucket) :=
  [("interview", .interview), ("party", .party),
   ("college", .college), ("wedding", .wedding)]

/-- Modelled from the spec: first event keyword contained in the
lower-cased event wins; no match selects the default bucket. -/
def firstMatchEvent (event : String) : EventBucket :=
  match eventTable.find? (fun row => pyContains (pyLower event) row.1) with
  | some row => row.2
  | none => .generic

/-! ## The OpenAI gateway and the index handler (app.py lines 79–123) -/

/-- Outcome the remote chat-completion service would give to the single
request, were one made. -/
inductive RemoteOutcome
  | ok (text : String)
  | failure (msg : String)
deriving DecidableEq, Repr

/-- The environment `call_openai` runs in: the `OPENAI_API_KEY` variable
(absent, or set to a possibly empty string), whether `from openai import
OpenAI` succeeded (app.py lines 9–13), and the remote outcome. -/
structure Env where
  apiKey : Option String
  openaiImported : Bool
  remote : RemoteOutcome
deriving DecidableEq, Repr

/-- Python truthiness of an optional string: `None` and `""` are falsy. -/
def truthy : Option String → Bool
  | none => false
  | some s => !(s == "")

/-- From app.py lines 79–101, `call_openai`: `None` when the key is falsy
or the module import failed; otherwise one request is made (second component counts
requests — the `try` block contains a single `create` call and no retry
loop) and any exception is swallowed into `None`.  A successful response is
returned stripped. -/
def call_openai (env : Env) : Option String × Nat :=
  if !(truthy env.apiKey) || !env.openaiImported then (none, 0)
  else
    match env.remote with
    | .ok text => (some (pyStrip text), 1)
    | .failure _ => (none, 1)

/-- What a POST to `/` produces. -/
inductive IndexResult
  | validationRedirect
  | page (suggestion : Option String) (notice : Option String)
deriving DecidableEq, Repr

/-- From app.py line 119: the non-fatal notice shown when AI generation fails. -/
def aiNotice : String := "AI unavailable — using rule-based suggestions."

/-- From app.py lines 103–123, the `index` POST handler: form fields are
optional strings; empty or missing event/clothes flashes and redirects;
with `use_ai` the gateway result is used when truthy, otherwise the rule
engine plus the notice. -/
def index_post (env : Env) (event clothes : Option String) (use_ai : Bool) :
    IndexResult :=
  if !(truthy event) || !(truthy clothes) then .validationRedirect
  else
    let e := event.getD ""
    let c := clothes.getD ""
    if use_ai then
      let ai := (call_openai env).1
      if truthy ai then .page ai none
      else .page (some (suggest_rule_based e c)) (some aiNotice)
    else .page (some (suggest_rule_based e c)) none

/-! ## The credential store and its routes (app.py lines 19–28, 125–180) -/

/-- One row of the `users` table (app.py lines 23–24). -/
structure UserRow where
  id : Nat
  username : String
  password : String
deriving DecidableEq, Repr

/-- The `users` table. -/
structure DB where
  users : List UserRow
deriving DecidableEq, Repr

/-- SQLite `INTEGER PRIMARY KEY` auto-assignment: one more than the
largest existing id. -/
def DB.freshId (db : DB) : Nat :=
  (db.users.map UserRow.id).foldr max 0 + 1

/-- What a POST to `/signup` produces. -/
inductive SignupResult
  | validationRedirect
  | duplicateFlash
  | successRedirect
deriving DecidableEq, Repr

/-- From app.py lines 125–145, the `signup` POST handler: field-presence check,
then an INSERT that hits the UNIQUE constraint (`IntegrityError`, flashed
as duplicate, no state change) when the username exists.  werkzeug's
`generate_password_hash` is passed explicitly as `hashFn`. -/
def signup_post (hashFn : String → String) (db : DB)
    (username password : Option String) : DB × SignupResult :=
  if !(truthy username) || !(truthy password) then (db, .validationRedirect)
  else
    let u := username.getD ""
    let p := password.getD ""
    if db.users.any (fun r => r.username == u) then (db, .duplicateFlash)
    else ({ users := db.users ++ [⟨db.freshId, u, hashFn p⟩] }, .successRedirect)

/-- werkzeug `check_password_hash(stored, password)` as called by app.py
line 157: a non-string password (absent form field, `None`) raises inside
werkzeug (modelled as `Except.error`); otherwise the password is hashed
and compared. -/
def check_password_hash (hashFn : String → String) (stored : String)
    (password : Option String) : Except String Bool :=
  match password with
  | none => .error "TypeError: password is None"
  | some p => .ok (stored == hashFn p)

/-- What a POST to `/login` produces (`crash` is an exception escaping the
handler). -/
inductive LoginResult
  | invalidFlash
  | authenticated (user_id : Nat)
  | crash
deriving DecidableEq, Repr

/-- From app.py lines 147–162, the `login` POST handler: SELECT by username (a
missing field is `None`, which matches no row), then
`user and check_password_hash(user[2], password)` — the check is only
reached when a row was found. -/
def login_post (hashFn : String → String) (db : DB)
    (username password : Option String) : LoginResult :=
  match db.users.find? (fun r => username == some r.username) with
  | none => .invalidFlash
  | some r =>
    match check_password_hash hashFn r.password password with
    | .error _ => .crash
    | .ok true => .authenticated r.id
    | .ok false => .invalidFlash

/-- What a GET of `/profile` produces (`crash` is an exception escaping the
handler). -/
inductive ProfileResult
  | loginRedirect
  | page (username : String)
  | crash
deriving DecidableEq, Repr

/-- From app.py lines 170–180, the `profile` handler: with a session user id the
username is fetched by `c.fetchone()[0]` — when the id matches no row,
`fetchone()` is `None` and subscripting it raises (modelled `crash`). -/
def profile_get (db : DB) (sessionUserId : Option Nat) : ProfileResult :=
  match sessionUserId with
  | none => .loginRedirect
  | some uid =>
    match db.users.find? (fun r => r.id == uid) with
    | none => .crash
    | some r => .page r.username

/-! ## Support lemmas -/

theorem lowerChar_ne_comma (c : Char) : (lowerChar c = ',') = (c = ',') := by
  unfold lowerChar
  split <;> simp_all

theorem isSpaceChar_lowerChar (c : Char) : isSpaceChar (lowerChar c) = isSpaceChar c := by
  unfold lowerChar
  split <;> rfl

theorem lowerChar_eq_or (c : Char) :
    lowerChar c = c ∨ lowerChar c ∈
      ['a','b','c','d','e','f','g','h','i','j','k','l','m',
       'n','o','p','q','r','s','t','u','v','w','x','y','z'] := by
  unfold lowerChar
  split
  all_goals first
    | (left; rfl)
    | (right; decide)

theorem lowerChar_idem (c : Char) : lowerChar (lowerChar c) = lowerChar c := by
  rcases lowerChar_eq_or c with h | h
  · simp [h]
  · have hall : ∀ d ∈
        ['a','b','c','d','e','f','g','h','i','j','k','l','m',
         'n','o','p','q','r','s','t','u','v','w','x','y','z'], lowerChar d = d := by decide
    exact hall _ h

theorem toLowerL_idem (l : List Char) : toLowerL (toLowerL l) = toLowerL l := by
  unfold toLowerL
  rw [List.map_map]
  exact List.map_congr_left (fun a _ => lowerChar_idem a)

theorem dropWhile_idem (p : Char → Bool) (l : List Char) :
    (l.dropWhile p).dropWhile p = l.dropWhile p := by
  induction l with
  | nil => rfl
  | cons c t ih =>
    by_cases h : p c
    · rw [List.dropWhile_cons_of_pos h]; exact ih
    · rw [List.dropWhile_cons_of_neg h, List.dropWhile_cons_of_neg h]

theorem dropWhile_fix_of_pre (p : Char → Bool) {m pfx : List Char}
    (hm : m.dropWhile p = m) (hp : pfx <+: m) : pfx.dropWhile p = pfx := by
  cases pfx with
  | nil => rfl
  | cons a t =>
    obtain ⟨rest, hrest⟩ := hp
    have ha : ¬ p a := by
      intro hpa
      subst hrest
      simp only [List.cons_append] at hm
      rw [List.dropWhile_cons_of_pos hpa] at hm
      have hs := List.IsSuffix.length_le (List.dropWhile_suffix (l := t ++ rest) p)
      rw [hm] at hs
      simp at hs
    exact List.dropWhile_cons_of_neg ha

theorem trimL_prefix_dropWhile (l : List Char) :
    trimL l <+: l.dropWhile isSpaceChar := by
  have h1 : (l.dropWhile isSpaceChar).reverse.dropWhile isSpaceChar <:+
      (l.dropWhile isSpaceChar).reverse := List.dropWhile_suffix _
  have h2 := List.reverse_prefix.mpr h1
  rw [List.reverse_reverse] at h2
  exact h2

theorem dropWhile_trimL (l : List Char) :
    (trimL l).dropWhile isSpaceChar = trimL l :=
  dropWhile_fix_of_pre isSpaceChar (dropWhile_idem _ l) (trimL_prefix_dropWhile l)

theorem trimL_idem (l : List Char) : trimL (trimL l) = trimL l := by
  have hfix := dropWhile_trimL l
  show ((((trimL l).dropWhile isSpaceChar).reverse).dropWhile isSpaceChar).reverse = trimL l
  rw [hfix]
  show (((((l.dropWhile isSpaceChar).reverse.dropWhile isSpaceChar).reverse).reverse).dropWhile
      isSpaceChar).reverse = trimL l
  rw [List.reverse_reverse, dropWhile_idem]
  rfl

theorem dropWhile_space_toLowerL (l : List Char) :
    (toLowerL l).dropWhile isSpaceChar = toLowerL (l.dropWhile isSpaceChar) := by
  unfold toLowerL
  rw [List.dropWhile_map]
  have : (isSpaceChar ∘ lowerChar) = isSpaceChar := funext isSpaceChar_lowerChar
  rw [this]

theorem trimL_toLowerL (l : List Char) : trimL (toLowerL l) = toLowerL (trimL l) := by
  unfold trimL
  rw [dropWhile_space_toLowerL]
  unfold toLowerL
  rw [← List.map_reverse, List.dropWhile_map]
  have : (isSpaceChar ∘ lowerChar) = isSpaceChar := funext isSpaceChar_lowerChar
  rw [this, List.map_reverse]

theorem procL_idem (q : List Char) : procL (procL q) = procL q := by
  unfold procL
  rw [trimL_toLowerL, trimL_idem, toLowerL_idem]

theorem procL_cons_space (q : List Char) : procL (' ' :: q) = procL q := by
  unfold procL trimL
  rw [List.dropWhile_cons_of_pos (by decide : isSpaceChar ' ' = true)]

theorem splitComma_ne_nil (l : List Char) : splitComma l ≠ [] := by
  cases l with
  | nil => simp [splitComma]
  | cons c cs =>
    unfold splitComma
    split
    · simp
    · split <;> simp

theorem comma_notMem_splitComma (l : List Char) : ∀ q ∈ splitComma l, ',' ∉ q := by
  induction l with
  | nil =>
    intro q hq
    simp [splitComma] at hq
    subst hq
    simp
  | cons c cs ih =>
    intro q hq
    unfold splitComma at hq
    by_cases hc : c = ','
    · rw [if_pos hc] at hq
      rcases List.mem_cons.mp hq with rfl | hq'
      · simp
      · exact ih q hq'
    · rw [if_neg hc] at hq
      rcases hsp : splitComma cs with _ | ⟨p, ps⟩
      · exact absurd hsp (splitComma_ne_nil cs)
      · rw [hsp] at hq
        rcases List.mem_cons.mp hq with rfl | hq'
        · intro hm
          rcases List.mem_cons.mp hm with hcm | hpm
          · exact hc hcm.symm
          · exact ih p (hsp ▸ List.mem_cons_self p ps) hpm
        · exact ih q (hsp ▸ List.mem_cons_of_mem p hq')

theorem comma_notMem_toLowerL (l : List Char) (h : ',' ∉ l) : ',' ∉ toLowerL l := by
  intro hm
  rcases List.mem_map.mp hm with ⟨d, hd, hdl⟩
  rw [lowerChar_ne_comma d] at hdl
  exact h (hdl ▸ hd)

theorem comma_notMem_trimL (l : List Char) (h : ',' ∉ l) : ',' ∉ trimL l := by
  intro hm
  apply h
  unfold trimL at hm
  rw [List.mem_reverse] at hm
  have h2 := (List.dropWhile_suffix isSpaceChar).subset hm
  rw [List.mem_reverse] at h2
  exact (List.dropWhile_suffix isSpaceChar).subset h2

theorem comma_notMem_procL (l : List Char) (h : ',' ∉ l) : ',' ∉ procL l :=
  comma_notMem_toLowerL _ (comma_notMem_trimL _ h)

theorem splitComma_append_no_comma (l1 l2 : List Char) (h : ',' ∉ l1) :
    splitComma (l1 ++ l2) = (l1 ++ (splitComma l2).headI) :: (splitComma l2).tail := by
  induction l1 with
  | nil =>
    simp only [List.nil_append]
    rcases hs : splitComma l2 with _ | ⟨p, ps⟩
    · exact absurd hs (splitComma_ne_nil l2)
    · simp [List.headI]
  | cons c t ih =>
    have hc : ¬ (c = ',') := fun hcc => h (by simp [hcc])
    simp only [List.cons_append]
    conv_lhs => simp only [splitComma]
    rw [if_neg hc, ih (fun hm => h (List.mem_cons_of_mem c hm))]

theorem splitComma_no_comma (l : List Char) (h : ',' ∉ l) : splitComma l = [l] := by
  have h2 := splitComma_append_no_comma l [] h
  simpa [splitComma] using h2

theorem splitComma_intercalate (p : List Char) (ps : List (List Char))
    (h : ∀ q ∈ p :: ps, ',' ∉ q) :
    splitComma (intercalateL [',', ' '] (p :: ps)) =
      p :: ps.map (fun q => ' ' :: q) := by
  induction ps generalizing p with
  | nil => simp [intercalateL, splitComma_no_comma p (h p (List.mem_cons_self p []))]
  | cons q ps' ih =>
    have hp : ',' ∉ p := h p (List.mem_cons_self _ _)
    have hrest : ∀ r ∈ q :: ps', ',' ∉ r := fun r hr => h r (List.mem_cons_of_mem _ hr)
    have hIH := ih q hrest
    have h1 : splitComma ([',', ' '] ++ intercalateL [',', ' '] (q :: ps')) =
        [] :: (' ' :: q) :: ps'.map (fun r => ' ' :: r) := by
      simp [splitComma, hIH]
    simp only [intercalateL]
    rw [List.append_assoc, splitComma_append_no_comma _ _ hp, h1]
    simp [List.headI]

theorem map_procL_splitComma_intercalate (ps : List (List Char))
    (hfix : ∀ p ∈ ps, procL p = p) (hc : ∀ p ∈ ps, ',' ∉ p) (hne : ps ≠ []) :
    (splitComma (intercalateL [',', ' '] ps)).map procL = ps := by
  rcases ps with _ | ⟨p, ps'⟩
  · exact absurd rfl hne
  · rw [splitComma_intercalate p ps' hc]
    simp only [List.map_cons, List.map_map]
    rw [hfix p (List.mem_cons_self _ _)]
    congr 1
    have hcg : ∀ r ∈ ps', (procL ∘ fun q => ' ' :: q) r = id r := by
      intro r hr
      simp only [Function.comp, id]
      rw [procL_cons_space, hfix r (List.mem_cons_of_mem _ hr)]
    rw [List.map_congr_left hcg, List.map_id]

theorem pieces_eq_map (s : String) :
    pieces s = (splitComma s.data).map (fun q => String.mk (procL q)) := by
  unfold pieces pySplit
  rw [List.map_map]
  rfl

theorem pieces_map_data (s : String) :
    (pieces s).map String.data = (splitComma s.data).map procL := by
  rw [pieces_eq_map, List.map_map]
  rfl

theorem pyJoin_data (xs : List String) :
    (pyJoin ", " xs).data = intercalateL [',', ' '] (xs.map String.data) := rfl

/-- Claim C5: the garment-split operation (split on commas, trim, lower-case
each piece) is idempotent — joining the resulting pieces with ", " and
splitting/trimming/lower-casing again yields the same list. -/
theorem garment_split_idempotent (t : String) :
    pieces (pyJoin ", " (pieces t)) = pieces t := by
  rw [pieces_eq_map (pyJoin ", " (pieces t)), pieces_eq_map t]
  have hmk : ∀ x : List (List Char),
      x.map (fun q => String.mk (procL q)) = (x.map procL).map String.mk := by
    intro x
    rw [List.map_map]
    rfl
  rw [hmk, hmk]
  congr 1
  rw [pyJoin_data]
  have hdm : ∀ x : List (List Char), (x.map String.mk).map String.data = x := by
    intro x
    rw [List.map_map]
    exact List.map_id x
  rw [hdm]
  apply map_procL_splitComma_intercalate
  · intro p hp
    rcases List.mem_map.mp hp with ⟨q, _, rfl⟩
    exact procL_idem q
  · intro p hp
    rcases List.mem_map.mp hp with ⟨q, hq, rfl⟩
    exact comma_notMem_procL q (comma_notMem_splitComma t.data q hq)
  · simp [splitComma_ne_nil]

/-! ## Categorization and event-classification lemmas -/

theorem categorize_eq_firstMatchBucket (item : String) :
    categorize item = firstMatchBucket item := by
  unfold categorize firstMatchBucket keywordTable
  simp only [List.find?, List.any_cons, List.any_nil, Bool.or_false, Bool.or_assoc]
  cases h1 : (pyContains item "shirt" || pyContains item "top") <;>
    cases h2 : (pyContains item "jeans" || (pyContains item "pants" || pyContains item "skirt")) <;>
    cases h3 : pyContains item "dress" <;>
    cases h4 : (pyContains item "jacket" || pyContains item "coat") <;>
    cases h5 : (pyContains item "shoes" || (pyContains item "sneakers" || pyContains item "boots")) <;>
    simp_all

theorem get_addItem (cats : Categories) (x : String) (b : Bucket) :
    (addItem cats x).get b =
      if categorize x = b then cats.get b ++ [x] else cats.get b := by
  unfold addItem
  rcases h : categorize x <;> cases b <;> simp [Categories.get, h]

theorem get_foldl (items : List String) (acc : Categories) (b : Bucket) :
    (items.foldl addItem acc).get b =
      acc.get b ++ items.filter (fun it => categorize it = b) := by
  induction items generalizing acc with
  | nil => simp
  | cons x xs ih =>
    rw [List.foldl_cons, ih, get_addItem]
    by_cases h : categorize x = b
    · simp [h, List.filter_cons]
    · simp [h, List.filter_cons]

theorem get_empty (b : Bucket) : Categories.empty.get b = [] := by
  cases b <;> rfl

theorem mem_categorizeAll (items : List String) (item : String) (b : Bucket) :
    item ∈ (categorizeAll items).get b ↔ item ∈ items ∧ categorize item = b := by
  unfold categorizeAll
  rw [get_foldl, get_empty]
  simp [List.mem_filter]

theorem eventBucket_eq_firstMatchEvent (event : String) :
    eventBucket event = firstMatchEvent event := by
  unfold eventBucket firstMatchEvent eventTable
  simp only [List.find?]
  cases h1 : pyContains (pyLower event) "interview" <;>
    cases h2 : pyContains (pyLower event) "party" <;>
    cases h3 : pyContains (pyLower event) "college" <;>
    cases h4 : pyContains (pyLower event) "wedding" <;>
    simp_all

set_option maxRecDepth 100000

theorem suggestionParts_empty_clothes (event : String) :
    suggestionParts event "" = bucketTriple (eventBucket event) := rfl

theorem find?_append_none {α : Type} (p : α → Bool) (l1 l2 : List α)
    (h : l1.find? p = none) : (l1 ++ l2).find? p = l2.find? p := by
  induction l1 with
  | nil => simp
  | cons a t ih =>
    rw [List.cons_append]
    cases hp : p a with
    | false =>
      simp only [List.find?, hp] at h ⊢
      exact ih h
    | true =>
      exfalso
      simp only [List.find?, hp] at h
      exact Option.noConfusion h

theorem pieces_fixed (s : String) : ∀ g ∈ pieces s, pyLower (pyStrip g) = g := by
  intro g hg
  rw [pieces_eq_map] at hg
  rcases List.mem_map.mp hg with ⟨q, _, rfl⟩
  show String.mk (procL (procL q)) = String.mk (procL q)
  rw [procL_idem]

/-! ## Claim theorems -/

/-- Claim C1: every garment item is classified into exactly one of the six
buckets (membership in a bucket's list is equivalent to being an input item
whose classification is that bucket), the classification agrees with
first-matching-keyword scanning of the priority-ordered table, and
"leather jacket" goes to outer, never accessories. -/
theorem categorization_first_match :
    (∀ item : String, categorize item = firstMatchBucket item) ∧
    (∀ (items : List String) (item : String) (b : Bucket),
      item ∈ (categorizeAll items).get b ↔ item ∈ items ∧ categorize item = b) ∧
    categorize "leather jacket" = Bucket.outer :=
  ⟨categorize_eq_firstMatchBucket, mem_categorizeAll, by decide⟩

/-- Claim C2: color detection returns exactly the palette colors occurring
as a case-insensitive substring of the full clothes text, in palette order
(a sublist of the palette) with no duplicates; "red" is reported once for
"I have a red shirt and a red hat", and "blackout" matches "black". -/
theorem color_detection_palette_order :
    (∀ t c, c ∈ detectedColors t ↔ c ∈ colors ∧ pyContains (pyLower t) c = true) ∧
    (∀ t, (detectedColors t).Sublist colors) ∧
    (∀ t, (detectedColors t).Nodup) ∧
    detectedColors "I have a red shirt and a red hat" = ["red"] ∧
    detectedColors "blackout" = ["black"] := by
  refine ⟨?_, ?_, ?_, by decide, by decide⟩
  · intro t c
    unfold detectedColors
    simp [List.mem_filter]
  · intro t
    exact List.filter_sublist colors
  · intro t
    exact (List.filter_sublist colors).nodup (by decide)

/-- Claim C3: event classification lower-cases the event and tests substring
containment in the fixed priority order interview, party, college, wedding,
first match wins, no match selecting the default bucket; each bucket yields
its fixed template triple (witnessed by the engine producing exactly
`bucketTriple` of the classified bucket when nothing is personalized); and
"interview at a party" selects the interview bucket. -/
theorem event_classification_priority :
    (∀ event : String, eventBucket event = firstMatchEvent event) ∧
    (∀ event : String, suggestionParts event "" = bucketTriple (eventBucket event)) ∧
    eventBucket "interview at a party" = EventBucket.interview :=
  ⟨eventBucket_eq_firstMatchEvent, suggestionParts_empty_clothes, by decide⟩

/-- Claim C4: for event "College fest" and clothes "blue jeans, white
t-shirt, sneakers" with AI disabled, the Outfit part is the college outfit
plus the "Use your ..." clause naming the tops/bottoms garments, the Color
Tip part is the college tip plus "Detected: blue, white.", the Accessories
part is the college constant, and the composed suggestion ends with the
constant closing remark. -/
theorem college_fest_end_to_end :
    (suggestionParts "College fest" "blue jeans, white t-shirt, sneakers").1 =
      "Casual: Jeans with t-shirt or hoodie. Use your white t-shirt, blue jeans." ∧
    (suggestionParts "College fest" "blue jeans, white t-shirt, sneakers").2.1 =
      "Mix casual colors; earth tones for relaxed vibe. Detected: blue, white." ∧
    (suggestionParts "College fest" "blue jeans, white t-shirt, sneakers").2.2 =
      "Backpack, sneakers, cap or scarf." ∧
    suggest_rule_based "College fest" "blue jeans, white t-shirt, sneakers" =
      "<b>Outfit:</b> Casual: Jeans with t-shirt or hoodie. Use your white t-shirt, blue jeans.<br><b>Color Tip:</b> Mix casual colors; earth tones for relaxed vibe. Detected: blue, white.<br><b>Accessories:</b> Backpack, sneakers, cap or scarf.<br><b>Tip:</b> Match your vibe to the event!" :=
  ⟨by decide, by decide, by decide, by decide⟩

/-- Claim C6: the gateway returns `None` whenever the credential is absent
or falsy, the library import failed, or the remote call fails; it makes at
most one remote request (no retry); and when it returns `None` on an
AI-enabled request the index handler produces the rule-engine suggestion
together with the non-fatal AI-unavailable notice. -/
theorem gateway_none_and_fallback :
    (∀ env : Env,
      truthy env.apiKey = false ∨ env.openaiImported = false ∨
        (∃ msg, env.remote = RemoteOutcome.failure msg) →
      (call_openai env).1 = none) ∧
    (∀ env : Env, (call_openai env).2 ≤ 1) ∧
    (∀ (env : Env) (event clothes : String),
      event ≠ "" → clothes ≠ "" → (call_openai env).1 = none →
      index_post env (some event) (some clothes) true =
        IndexResult.page (some (suggest_rule_based event clothes)) (some aiNotice)) := by
  refine ⟨?_, ?_, ?_⟩
  · intro env h
    unfold call_openai
    rcases h with h | h | ⟨msg, h⟩
    · simp [h]
    · simp [h]
    · rcases hk : (!(truthy env.apiKey) || !env.openaiImported) with _ | _
      · simp [hk, h]
      · simp [hk]
  · intro env
    unfold call_openai
    rcases hk : (!(truthy env.apiKey) || !env.openaiImported) with _ | _
    · rcases env.remote <;> simp [hk]
    · simp [hk]
  · intro env event clothes he hc hnone
    unfold index_post
    simp [truthy, he, hc, hnone]

/-- Witness for C6: with the API key absent and the remote unreachable, the
handler emits the rule-based suggestion and the notice. -/
theorem gateway_none_and_fallback_witness :
    index_post ⟨none, true, RemoteOutcome.failure "APIConnectionError"⟩
        (some "party") (some "red dress") true =
      IndexResult.page (some (suggest_rule_based "party" "red dress")) (some aiNotice) :=
  gateway_none_and_fallback.2.2 ⟨none, true, RemoteOutcome.failure "APIConnectionError"⟩
    "party" "red dress" (by decide) (by decide) (by decide)

/-- Claim C7: signing up an existing username fails with the duplicate
flash and mutates nothing, while a fresh username succeeds and stores the
hash of the password (the hash function's output, not the plaintext). -/
theorem signup_duplicate_username_no_mutation (hashFn : String → String) (db : DB)
    (u p1 p2 : String) (hu : u ≠ "") (hp1 : p1 ≠ "") (hp2 : p2 ≠ "")
    (hfresh : ∀ r ∈ db.users, r.username ≠ u) :
    (signup_post hashFn db (some u) (some p1)).2 = SignupResult.successRedirect ∧
    (signup_post hashFn (signup_post hashFn db (some u) (some p1)).1 (some u) (some p2)).2 =
      SignupResult.duplicateFlash ∧
    (signup_post hashFn (signup_post hashFn db (some u) (some p1)).1 (some u) (some p2)).1 =
      (signup_post hashFn db (some u) (some p1)).1 ∧
    ((signup_post hashFn db (some u) (some p1)).1.users.find?
        (fun r => r.username == u)).map UserRow.password = some (hashFn p1) := by
  have hany : db.users.any (fun r => r.username == u) = false := by
    rw [List.any_eq_false]
    intro r hr
    simp [hfresh r hr]
  have h1 : signup_post hashFn db (some u) (some p1) =
      ({ users := db.users ++ [⟨db.freshId, u, hashFn p1⟩] }, .successRedirect) := by
    unfold signup_post
    simp [truthy, hu, hp1, hany]
  have hfind : db.users.find? (fun r => r.username == u) = none := by
    rw [List.find?_eq_none]
    intro r hr
    simp [hfresh r hr]
  have h2 : signup_post hashFn { users := db.users ++ [⟨db.freshId, u, hashFn p1⟩] }
      (some u) (some p2) =
      ({ users := db.users ++ [⟨db.freshId, u, hashFn p1⟩] }, .duplicateFlash) := by
    unfold signup_post
    simp [truthy, hu, hp2, List.any_append]
  refine ⟨by rw [h1], by rw [h1, h2], by rw [h1, h2], ?_⟩
  rw [h1]
  rw [find?_append_none _ _ _ hfind]
  simp [List.find?]

/-- Witness for C7: creating "alice" twice on an empty table. -/
theorem signup_duplicate_username_no_mutation_witness :
    (signup_post (fun s => String.append "h" s) ⟨[]⟩ (some "alice") (some "pw1")).2 =
      SignupResult.successRedirect ∧
    (signup_post (fun s => String.append "h" s)
        (signup_post (fun s => String.append "h" s) ⟨[]⟩ (some "alice") (some "pw1")).1
        (some "alice") (some "pw2")).2 = SignupResult.duplicateFlash ∧
    (signup_post (fun s => String.append "h" s)
        (signup_post (fun s => String.append "h" s) ⟨[]⟩ (some "alice") (some "pw1")).1
        (some "alice") (some "pw2")).1 =
      (signup_post (fun s => String.append "h" s) ⟨[]⟩ (some "alice") (some "pw1")).1 ∧
    ((signup_post (fun s => String.append "h" s) ⟨[]⟩ (some "alice")
        (some "pw1")).1.users.find?
        (fun r => r.username == "alice")).map UserRow.password =
      some (String.append "h" "pw1") :=
  signup_duplicate_username_no_mutation (fun s => String.append "h" s) ⟨[]⟩
    "alice" "pw1" "pw2" (by decide) (by decide) (by decide) (by simp)

/-- Claim C8: the code, not the claim, is at fault — looking up a session
user id that is absent from the users table makes `c.fetchone()[0]`
subscript `None`, so the profile handler crashes instead of failing with a
recoverable NotFound; present ids and anonymous sessions behave normally. -/
theorem profile_missing_id_crashes :
    profile_get ⟨[⟨1, "alice", "hash1"⟩]⟩ (some 2) = ProfileResult.crash ∧
    profile_get ⟨[]⟩ (some 1) = ProfileResult.crash ∧
    profile_get ⟨[⟨1, "alice", "hash1"⟩]⟩ (some 1) = ProfileResult.page "alice" ∧
    profile_get ⟨[⟨1, "alice", "hash1"⟩]⟩ none = ProfileResult.loginRedirect :=
  ⟨by decide, by decide, by decide, by decide⟩

/-- Counterexample to C9 as stated: a login with an existing username and a
missing password field reaches `check_password_hash` with `None`, which
raises — the outcome is a crash, not the generic invalid-credentials
message. -/
theorem login_missing_password_crash_cex :
    login_post (fun s => String.append "#" s) ⟨[⟨1, "alice", "#pw1"⟩]⟩
        (some "alice") none = LoginResult.crash ∧
    login_post (fun s => String.append "#" s) ⟨[⟨1, "alice", "#pw1"⟩]⟩
        (some "alice") none ≠ LoginResult.invalidFlash :=
  ⟨by decide, by decide⟩

/-- Claim C9 (amended): no field-presence validation exists; a missing
username always yields the generic invalid-credentials message, a missing
password yields it only when the username matches no stored user (when it
does match, the hash check receives the absent value and the handler
crashes), and in no missing-field case does the session transition to
Authenticated. -/
theorem login_missing_field_behavior (hashFn : String → String) (db : DB)
    (username password : Option String) :
    (username = none → login_post hashFn db username password = LoginResult.invalidFlash) ∧
    (password = none → (∀ r ∈ db.users, username ≠ some r.username) →
      login_post hashFn db username password = LoginResult.invalidFlash) ∧
    (password = none → ∀ r, db.users.find? (fun r0 => username == some r0.username) = some r →
      login_post hashFn db username password = LoginResult.crash) ∧
    (∀ uid, username = none ∨ password = none →
      login_post hashFn db username password ≠ LoginResult.authenticated uid) := by
  refine ⟨?_, ?_, ?_, ?_⟩
  · rintro rfl
    unfold login_post
    have hfind : db.users.find? (fun r => (none : Option String) == some r.username) = none := by
      rw [List.find?_eq_none]
      intro r hr
      simp
    rw [hfind]
  · rintro rfl hm
    unfold login_post
    have hfind : db.users.find? (fun r => username == some r.username) = none := by
      rw [List.find?_eq_none]
      intro r hr
      simp [hm r hr]
    rw [hfind]
  · rintro rfl r hr
    unfold login_post
    rw [hr]
    rfl
  · intro uid h
    unfold login_post
    rcases h with rfl | rfl
    · have hfind : db.users.find? (fun r => (none : Option String) == some r.username) = none := by
        rw [List.find?_eq_none]
        intro r hr
        simp
      rw [hfind]
      simp
    · rcases hf : db.users.find? (fun r => username == some r.username) with _ | r
      · rw [hf]
        simp
      · rw [hf]
        simp [check_password_hash]

/-- Witness for C9 (amended): a missing username yields the generic
message on an empty table. -/
theorem login_missing_field_behavior_witness :
    login_post (fun s => s) ⟨[]⟩ none (some "pw") = LoginResult.invalidFlash :=
  (login_missing_field_behavior (fun s => s) ⟨[]⟩ none (some "pw")).1 rfl

/-- Claim C10: when the tops or bottoms bucket is non-empty, the outfit
part is the event template plus " Use your " followed by the tops-then-
bottoms garments joined with ", ", and every listed garment is one of the
trimmed, lower-cased pieces of the input (it is fixed by
trimming-and-lower-casing). -/
theorem use_your_clause_processed_pieces (event clothes : String)
    (h : (categorizeAll (pieces clothes)).tops ≠ [] ∨
         (categorizeAll (pieces clothes)).bottoms ≠ []) :
    (suggestionParts event clothes).1 =
      (bucketTriple (eventBucket event)).1 ++ " Use your " ++
        pyJoin ", " ((categorizeAll (pieces clothes)).tops ++
          (categorizeAll (pieces clothes)).bottoms) ++ "." ∧
    ∀ g ∈ (categorizeAll (pieces clothes)).tops ++ (categorizeAll (pieces clothes)).bottoms,
      g ∈ pieces clothes ∧ pyLower (pyStrip g) = g := by
  have hcond : ((categorizeAll (pieces clothes)).tops.isEmpty &&
      (categorizeAll (pieces clothes)).bottoms.isEmpty) = false := by
    rcases h with h | h <;> simp [List.isEmpty_iff, h]
  constructor
  · unfold suggestionParts
    simp only [hcond, Bool.false_eq_true, if_false]
  · intro g hg
    rcases List.mem_append.mp hg with hg' | hg'
    · have hm := (mem_categorizeAll (pieces clothes) g Bucket.tops).mp hg'
      exact ⟨hm.1, pieces_fixed clothes g hm.1⟩
    · have hm := (mem_categorizeAll (pieces clothes) g Bucket.bottoms).mp hg'
      exact ⟨hm.1, pieces_fixed clothes g hm.1⟩

/-- Witness for C10: clothes "Blue Jeans" has a non-empty bottoms bucket. -/
theorem use_your_clause_processed_pieces_witness :
    (suggestionParts "Party" "Blue Jeans").1 =
      (bucketTriple (eventBucket "Party")).1 ++ " Use your " ++
        pyJoin ", " ((categorizeAll (pieces "Blue Jeans")).tops ++
          (categorizeAll (pieces "Blue Jeans")).bottoms) ++ "." ∧
    ∀ g ∈ (categorizeAll (pieces "Blue Jeans")).tops ++
        (categorizeAll (pieces "Blue Jeans")).bottoms,
      g ∈ pieces "Blue Jeans" ∧ pyLower (pyStrip g) = g :=
  use_your_clause_processed_pieces "Party" "Blue Jeans" (by decide)
